import Mathlib

/-
Shallow embedding of shap/models/_teacher_forcing.py (class TeacherForcing).

Modelling conventions:
* numpy arrays are Lean lists (rows outermost); token ids are Nat.
* Scores/logits are rationals, and the two transcendental scalar maps used by
  the code (np.exp and the log inside scipy.special.logit) are opaque
  parameters `rexp`, `rlog` of the environment; the algebraic structure of
  the computation (softmax quotient, logit quotient, selection) is embedded
  exactly.
* Opaque collaborators (the wrapped model, the tokenizer, the transformer
  forward pass) are function-valued fields of `Env`; fallible Python calls
  return `Option`/`Except`.
* Python exceptions are values of `Err`; mutable object state
  (`self.output`, `self.output_names`, the shared tokenizer's
  `padding_side`, plus a ghost recomputation counter) is `TFState`,
  threaded explicitly.
-/

/-- Tokenizer padding side (the tokenizer's mutable `padding_side` field). -/
inductive PadSide
  | left
  | right
deriving DecidableEq

/-- `similarity_model_type`: "pt", "tf", or None. -/
inductive Backend
  | pt
  | tf
  | unset
deriving DecidableEq

/-- Exceptions that can escape the opaque backend forward pass, and the
unbound-local failure produced after the tf branch swallows a RuntimeError. -/
inductive BackendErr
  | runtimeError
  | unboundLocalError
  | otherError
deriving DecidableEq

/-- Python exceptions raised by the embedded code itself. -/
inductive Err
  | indexError
  | attributeError
  | noDecoderStartError
  | tokenizeError
  | modelCallError
  | backend (e : BackendErr)
deriving DecidableEq

/-- Nested decoder config (`config.decoder`). -/
structure DecoderConfig where
  bos_token_id : Option Nat
deriving DecidableEq

/-- The similarity model's config object, with `hasattr _ and _ is not None`
collapsed into `Option.isSome`. -/
structure ModelConfig where
  is_encoder_decoder : Bool
  is_decoder : Bool
  decoder_start_token_id : Option Nat
  bos_token_id : Option Nat
  decoder : Option DecoderConfig
deriving DecidableEq

/-- Result of the source-side tokenizer call: padded ids plus attention mask. -/
structure EncodedInput where
  input_ids : List (List Nat)
  attention_mask : List (List Int)
deriving DecidableEq

/-- Arguments handed to the decoder-only forward pass after concatenation. -/
structure DecoderOnlyArgs where
  input_ids : List (List Nat)
  attention_mask : List (List Int)
  position_ids : List (List Int)
deriving DecidableEq

/-- A target batch: raw sentences (np.str_ dtype) or pre-tokenized ids. -/
inductive TargetData
  | strs (xs : List String)
  | ids (m : List (List Nat))
deriving DecidableEq

/-- 3-d logits array: batch, then position, then vocabulary. -/
abbrev Logits := List (List (List ℚ))

/-- The opaque collaborators and construction-time configuration of a
TeacherForcing instance. -/
structure Env where
  model_agnostic : Bool
  inner_model : List String → Option (List String)
  encode : List String → List (List Nat)
  keep_lead : Nat
  keep_trail : Nat
  decode_one : Nat → String
  tokCall : PadSide → List String → Option EncodedInput
  config : ModelConfig
  backend : Backend
  device : Option String
  fwdEncDec : EncodedInput → List (List Nat) → Except BackendErr Logits
  fwdDecOnly : DecoderOnlyArgs → Except BackendErr Logits
  batch_size : Nat
  rexp : ℚ → ℚ
  rlog : ℚ → ℚ

/-- Mutable per-instance state: cached target, cached output names, the
shared tokenizer's padding side, and a ghost counter of recomputations. -/
structure TFState where
  output : Option TargetData
  output_names : Option (List String)
  padding_side : PadSide
  recompute_count : Nat
deriving DecidableEq

/-- Clamp a (possibly negative) Python index for an axis of length `P`. -/
def pyIdx (P : Nat) (i : Int) : Nat :=
  if i < 0 then ((P : Int) + i).toNat else min i.toNat P

/-- Python slice `a[start:stop]` with negative-index semantics. -/
def pySlice (a : List α) (start stop : Int) : List α :=
  (a.take (pyIdx a.length stop)).drop (pyIdx a.length start)

/-- numpy `m.shape[1]` on a rectangular 2-d array given as rows. -/
def npShape1 (m : List (List α)) : Nat :=
  (m.headD []).length

/-- Running sums with accumulator (helper for np/torch cumsum). -/
def cumsumFrom (acc : Int) : List Int → List Int
  | [] => []
  | x :: xs => (acc + x) :: cumsumFrom (acc + x) xs

/-- `cumsum(-1)` over one row. -/
def npCumsum (l : List Int) : List Int :=
  cumsumFrom 0 l

/-- `(mask.cumsum(-1) - 1).masked_fill_(mask == 0, 0)` on one row. -/
def positionIdsRow (mask : List Int) : List Int :=
  List.zipWith (fun m c => if m = 0 then 0 else c - 1) mask (npCumsum mask)

/-- Decoder-only input construction (lines 268-274 / 290-295): concatenate
target ids to the right of the source ids, extend the attention mask with
ones over the appended region, and rebuild position ids from the cumulative
sum of the mask, zeroed where the mask is zero. -/
def buildDecoderOnlyArgs (inputs : EncodedInput) (output_ids : List (List Nat)) : DecoderOnlyArgs :=
  let ids := List.zipWith (· ++ ·) inputs.input_ids output_ids
  let mask := List.zipWith (fun m (o : List Nat) => m ++ List.replicate o.length 1) inputs.attention_mask output_ids
  { input_ids := ids
    attention_mask := mask
    position_ids := mask.map positionIdsRow }

/-- The tf-branch device wrapper: with an explicit device the forward pass
runs inside `try ... except RuntimeError as err: print(err)`; after a caught
RuntimeError the local `outputs` was never assigned, so reading
`outputs.logits` raises an unbound-local error. Without a device the call is
unguarded. -/
def tfDeviceCall (device : Option String) (run : Except BackendErr Logits) : Except BackendErr Logits :=
  match device, run with
  | none, r => r
  | some _, Except.ok l => Except.ok l
  | some _, Except.error BackendErr.runtimeError => Except.error BackendErr.unboundLocalError
  | some _, Except.error e => Except.error e

/-- `model_inference` (lines 242-305). The pt branch never catches; the tf
branch guards the forward pass with `tfDeviceCall`; with no recognized
backend the function falls through to `return logits` with `logits` unbound. -/
def model_inference (env : Env) (inputs : EncodedInput) (output_ids : List (List Nat)) : Except BackendErr Logits :=
  match env.backend with
  | Backend.pt =>
    if env.config.is_encoder_decoder then
      env.fwdEncDec inputs output_ids
    else
      env.fwdDecOnly (buildDecoderOnlyArgs inputs output_ids)
  | Backend.tf =>
    if env.config.is_encoder_decoder then
      tfDeviceCall env.device (env.fwdEncDec inputs output_ids)
    else
      tfDeviceCall env.device (env.fwdDecOnly (buildDecoderOnlyArgs inputs output_ids))
  | Backend.unset => Except.error BackendErr.unboundLocalError

/-- `get_outputs` (lines 157-180): a string batch is tokenized with the
configured number of leading/trailing special tokens stripped
(`[:, keep_prefix:-keep_suffix]` resp. `[:, keep_prefix:]`); an id batch
passes through unchanged. -/
def get_outputs (env : Env) : TargetData → List (List Nat)
  | TargetData.strs xs =>
    let enc := env.encode xs
    if env.keep_trail > 0 then
      enc.map (fun r => pySlice r (env.keep_lead : Int) (-(env.keep_trail : Int)))
    else
      enc.map (fun r => r.drop env.keep_lead)
  | TargetData.ids m => m

/-- `get_output_names` (lines 140-155): decode each id of the first row
(`output_ids[0, :]`); raises IndexError when there is no first row. -/
def get_output_names (env : Env) (output : TargetData) : Except Err (List String) :=
  match get_outputs env output with
  | [] => Except.error Err.indexError
  | r :: _ => Except.ok (r.map env.decode_one)

/-- `update_output_names` (lines 124-138): recompute the cache iff the new
target differs by value from the cached one. `self.output` is assigned
before `get_output_names` runs, so a failure there leaves the new target
cached with stale names. The ghost counter counts `get_output_names` calls. -/
def update_output_names (env : Env) (st : TFState) (output : TargetData) : (Except Err Unit) × TFState :=
  if st.output = some output then
    (Except.ok (), st)
  else
    match get_output_names env output with
    | Except.error e =>
      (Except.error e,
        { st with output := some output, recompute_count := st.recompute_count + 1 })
    | Except.ok names =>
      (Except.ok (),
        { st with output := some output, output_names := some names,
                  recompute_count := st.recompute_count + 1 })

/-- `get_inputs` (lines 182-209). The tokenizer's `padding_side` is set to
the requested side, the tokenizer is invoked, and the side is reset to
'right' by a plain assignment after the call; an exception inside the
tokenizer call therefore leaves the requested side in place. The
model-agnostic pre-step runs before the side is touched. -/
def get_inputs (env : Env) (X : List String) (padding_side : PadSide) (ps0 : PadSide) : (Except Err EncodedInput) × PadSide :=
  match (if env.model_agnostic then env.inner_model X else some X) with
  | none => (Except.error Err.modelCallError, ps0)
  | some xs =>
    match env.tokCall padding_side xs with
    | none => (Except.error Err.tokenizeError, padding_side)
    | some enc => (Except.ok enc, PadSide.right)

/-- Start-token resolution of lines 338-350: `decoder_start_token_id`, then
`bos_token_id`, then the nested `decoder.bos_token_id`; `none` means the
`ValueError` branch is taken. -/
def resolveDecoderStartTokenId (c : ModelConfig) : Option Nat :=
  match c.decoder_start_token_id with
  | some i => some i
  | none =>
    match c.bos_token_id with
    | some i => some i
    | none =>
      match c.decoder with
      | some d => d.bos_token_id
      | none => none

/-- Lines 352-353: `np.ones((n,1)) * decoder_start_token_id` concatenated to
the left of each target row. -/
def encDecDecoderInput (tid : Nat) (output_ids : List (List Nat)) : List (List Nat) :=
  output_ids.map (fun r => tid :: r)

/-- `get_teacher_forced_logits` (lines 307-364). Encoder-decoder: encode with
right padding, resolve the start token (ValueError when impossible), prepend
it to the target ids, run inference, drop the last time-step
(`logits[:, :-1, :]`). Decoder-only: encode with left padding, run inference
on the concatenated stream, slice `logits[:, -L-1:-1, :]`. -/
def get_teacher_forced_logits (env : Env) (X : List String) (Y : TargetData) (ps : PadSide) : (Except Err Logits) × PadSide :=
  let output_ids := get_outputs env Y
  if env.config.is_encoder_decoder then
    match get_inputs env X PadSide.right ps with
    | (Except.error e, ps1) => (Except.error e, ps1)
    | (Except.ok inputs, ps1) =>
      match resolveDecoderStartTokenId env.config with
      | none => (Except.error Err.noDecoderStartError, ps1)
      | some tid =>
        match model_inference env inputs (encDecDecoderInput tid output_ids) with
        | Except.error e => (Except.error (Err.backend e), ps1)
        | Except.ok logits => (Except.ok (logits.map (fun m => pySlice m 0 (-1))), ps1)
  else
    match get_inputs env X PadSide.left ps with
    | (Except.error e, ps1) => (Except.error e, ps1)
    | (Except.ok inputs, ps1) =>
      match model_inference env inputs output_ids with
      | Except.error e => (Except.error (Err.backend e), ps1)
      | Except.ok logits =>
        (Except.ok (logits.map (fun m => pySlice m (-(npShape1 output_ids : Int) - 1) (-1))), ps1)

/-- `calc_logodds` (lines 232-235) on one score vector:
`probs = exp(arr)/exp(arr).sum()` (no max shift) followed by
`logit(p) = log(p / (1 - p))` elementwise. -/
def calc_logodds (env : Env) (arr : List ℚ) : List ℚ :=
  let s := (arr.map env.rexp).sum
  arr.map (fun x => env.rlog ((env.rexp x / s) / (1 - env.rexp x / s)))

/-- Spec-side statement of one output entry of the log-odds converter: the
softmax probability of the target column, passed through logit. -/
def logoddsSpec (env : Env) (scores : List ℚ) (t : Nat) : ℚ :=
  let s := (scores.map env.rexp).sum
  let p := env.rexp (scores.getD t 0) / s
  env.rlog (p / (1 - p))

/-- Lines 226-230: the id row used for column extraction, taken from the
cached `self.output` (first row only; IndexError when the cache is empty,
AttributeError when it was never set). -/
def getLogoddsIds (env : Env) (output : Option TargetData) : Except Err (List Nat) :=
  match output with
  | none => Except.error Err.attributeError
  | some (TargetData.strs s) =>
    match get_outputs env (TargetData.strs s) with
    | [] => Except.error Err.indexError
    | r :: _ => Except.ok r
  | some (TargetData.ids m) =>
    match m with
    | [] => Except.error Err.indexError
    | r :: _ => Except.ok r

/-- numpy advanced indexing `a[:, np.array(range(P)), ids]` with the 1-d
index arrays broadcast against each other (P = a.shape[1]). -/
def npFancyIndex (a : List (List (List ℚ))) (ids : List Nat) : Except Err (List (List ℚ)) :=
  let P := npShape1 a
  let L := ids.length
  if P = L then
    Except.ok (a.map (fun m => ((List.range P).zip ids).map (fun jt => (m.getD jt.1 []).getD jt.2 0)))
  else if L = 1 then
    Except.ok (a.map (fun m => (List.range P).map (fun j => (m.getD j []).getD (ids.headD 0) 0)))
  else if P = 1 then
    Except.ok (a.map (fun m => ids.map (fun t => (m.getD 0 []).getD t 0)))
  else
    Except.error Err.indexError

/-- `get_logodds` (lines 211-240): apply `calc_logodds` along the last axis,
then extract, per batch row and position, the column of that position's
cached target id. -/
def get_logodds (env : Env) (output : Option TargetData) (logits : Logits) : Except Err (List (List ℚ)) :=
  match getLogoddsIds env output with
  | Except.error e => Except.error e
  | Except.ok output_ids =>
    npFancyIndex (logits.map (fun m => m.map (calc_logodds env))) output_ids

/-- One iteration body of the `__call__` loop (lines 113-116): teacher-forced
logits for the chunk, then log-odds against the cached target. -/
def chunkStep (env : Env) (cache : Option TargetData) (Xb : List String) (Yb : List (List Nat)) (ps : PadSide) : (Except Err (List (List ℚ))) × PadSide :=
  match get_teacher_forced_logits env Xb (TargetData.ids Yb) ps with
  | (Except.error e, ps1) => (Except.error e, ps1)
  | (Except.ok logits, ps1) =>
    match get_logodds env cache logits with
    | Except.error e => (Except.error e, ps1)
    | Except.ok lo => (Except.ok lo, ps1)

/-- The `while start_batch_idx < end_batch_idx` loop of `__call__`
(lines 111-121), driven by consecutive `take`/`drop` of the batch size;
`none` is the Python `output_batch is None` of a loop that never ran. The
loop terminates only for a positive batch size, exactly as in the source. -/
def callLoop (env : Env) (h : 0 < env.batch_size) (cache : Option TargetData) (X : List String) (Y : List (List Nat)) (ps : PadSide) : (Except Err (Option (List (List ℚ)))) × PadSide :=
  if hX : X = [] then
    (Except.ok none, ps)
  else
    match chunkStep env cache (X.take env.batch_size) (Y.take env.batch_size) ps with
    | (Except.error e, ps1) => (Except.error e, ps1)
    | (Except.ok lo, ps1) =>
      match callLoop env h cache (X.drop env.batch_size) (Y.drop env.batch_size) ps1 with
      | (Except.ok none, ps2) => (Except.ok (some lo), ps2)
      | (Except.ok (some rest), ps2) => (Except.ok (some (lo ++ rest)), ps2)
      | (Except.error e, ps2) => (Except.error e, ps2)
termination_by X.length
decreasing_by
  simp only [List.length_drop]
  have : X.length ≠ 0 := fun hz => hX (List.length_eq_zero.mp hz)
  omega

/-- The consecutive chunks of at most `bs` rows that the loop traverses. -/
def chunked (bs : Nat) (h : 0 < bs) : List α → List (List α)
  | [] => []
  | x :: xs => ((x :: xs).take bs) :: chunked bs h ((x :: xs).drop bs)
termination_by l => l.length
decreasing_by
  simp only [List.length_drop, List.length_cons]
  omega

/-- `__call__` (lines 92-122): update the target cache from `Y[:1]`, then run
the chunk loop. -/
def teacherForcingCall (env : Env) (h : 0 < env.batch_size) (st : TFState) (X : List String) (Y : List (List Nat)) : (Except Err (Option (List (List ℚ)))) × TFState :=
  match update_output_names env st (TargetData.ids (Y.take 1)) with
  | (Except.error e, st1) => (Except.error e, st1)
  | (Except.ok _, st1) =>
    match callLoop env h st1.output X Y st1.padding_side with
    | (Except.error e, ps1) => (Except.error e, { st1 with padding_side := ps1 })
    | (Except.ok out, ps1) => (Except.ok out, { st1 with padding_side := ps1 })

/-- An encoder-decoder config with an explicit decoder start token. -/
def cfgED : ModelConfig :=
  { is_encoder_decoder := true
    is_decoder := false
    decoder_start_token_id := some 7
    bos_token_id := none
    decoder := none }

/-- A decoder-only config. -/
def cfgDec : ModelConfig :=
  { is_encoder_decoder := false
    is_decoder := true
    decoder_start_token_id := none
    bos_token_id := none
    decoder := none }

/-- A small concrete encoded input. -/
def encW : EncodedInput :=
  { input_ids := [[0]], attention_mask := [[1]] }

/-- A concrete instantiation of the opaque collaborators: every sentence
tokenizes to the single id 0 with mask 1, decoding always yields "t", the
encoder-decoder forward pass emits one 2-vocabulary score row per decoder
input token, the decoder-only forward pass emits no positions. -/
def envA : Env :=
  { model_agnostic := false
    inner_model := fun xs => some xs
    encode := fun xs => xs.map (fun _ => [0])
    keep_lead := 0
    keep_trail := 0
    decode_one := fun _ => "t"
    tokCall := fun _ xs => some { input_ids := xs.map (fun _ => [0]), attention_mask := xs.map (fun _ => [1]) }
    config := cfgED
    backend := Backend.pt
    device := none
    fwdEncDec := fun _ dois => Except.ok (dois.map (fun r => r.map (fun _ => [0, 0])))
    fwdDecOnly := fun args => Except.ok (args.input_ids.map (fun _ => []))
    batch_size := 2
    rexp := id
    rlog := id }

/-- envA with a failing tokenizer call. -/
def envTokFail : Env :=
  { envA with tokCall := fun _ _ => none }

/-- envA with a pinned device and a forward pass that always raises a
RuntimeError (a device-placement failure). -/
def envFwdFailPt : Env :=
  { envA with device := some "cuda",
              fwdEncDec := fun _ _ => Except.error BackendErr.runtimeError }

/-- The same failing setup on the tensorflow backend. -/
def envFwdFailTf : Env :=
  { envFwdFailPt with backend := Backend.tf }

/-- Tensorflow, decoder-only, pinned device, failing forward pass. -/
def envFwdFailTfDec : Env :=
  { envFwdFailTf with config := cfgDec,
                      fwdDecOnly := fun _ => Except.error BackendErr.runtimeError }

/-- Decoder-only variant of envA. -/
def envDec : Env :=
  { envA with config := cfgDec,
              fwdDecOnly := fun args => Except.ok (args.input_ids.map (fun r => r.map (fun _ => [0, 0]))) }

/-- Decoder-only variant whose forward pass emits no positions (used for the
batch-driver witness, where only row counts matter). -/
def envC1 : Env :=
  { envA with config := cfgDec }

/-- A fresh instance state. -/
def st0 : TFState :=
  { output := none, output_names := none, padding_side := PadSide.right, recompute_count := 0 }

theorem getD_map_of_lt (l : List α) (f : α → β) (i : Nat) (d : β) (d0 : α) (h : i < l.length) :
    (l.map f).getD i d = f (l.getD i d0) := by
  rw [List.getD_eq_getElem _ _ (by simpa using h), List.getD_eq_getElem _ _ h]
  simp

theorem getD_mem_of_lt (l : List α) (i : Nat) (d : α) (h : i < l.length) : l.getD i d ∈ l := by
  rw [List.getD_eq_getElem _ _ h]
  exact List.getElem_mem h

theorem zip_range_getD (n : Nat) (l : List α) (j : Nat) (d : Nat × α) (hn : j < n) (hl : j < l.length) :
    ((List.range n).zip l).getD j d = (j, l.getD j d.2) := by
  have hlen : j < ((List.range n).zip l).length := by
    simp only [List.length_zip, List.length_range]
    omega
  rw [List.getD_eq_getElem _ _ hlen, List.getD_eq_getElem _ _ hl]
  simp

theorem cumsumFrom_length (acc : Int) (l : List Int) : (cumsumFrom acc l).length = l.length := by
  induction l generalizing acc with
  | nil => rfl
  | cons x xs ih => simp [cumsumFrom, ih]

theorem cumsumFrom_getD (l : List Int) (acc : Int) (j : Nat) (d : Int) (h : j < l.length) :
    (cumsumFrom acc l).getD j d = acc + (l.take (j + 1)).sum := by
  induction l generalizing acc j with
  | nil => simp at h
  | cons x xs ih =>
    cases j with
    | zero => simp [cumsumFrom]
    | succ j2 =>
      simp only [cumsumFrom, List.getD_cons_succ, List.take_succ_cons, List.sum_cons]
      rw [ih (acc + x) j2 (by simpa using h)]
      ring

theorem positionIdsRow_length (m : List Int) : (positionIdsRow m).length = m.length := by
  simp [positionIdsRow, npCumsum, cumsumFrom_length]

theorem positionIdsRow_getD (m : List Int) (j : Nat) (h : j < m.length) :
    (positionIdsRow m).getD j 0 =
      if m.getD j 0 = 0 then 0 else (m.take (j + 1)).sum - 1 := by
  have hc : j < (npCumsum m).length := by
    simpa [npCumsum, cumsumFrom_length] using h
  have hlen : j < (positionIdsRow m).length := by simpa [positionIdsRow_length] using h
  unfold positionIdsRow
  rw [List.getD_eq_getElem _ _ (by simpa [positionIdsRow] using hlen)]
  rw [List.getElem_zipWith]
  have h1 : m[j] = m.getD j 0 := (List.getD_eq_getElem _ _ h).symm
  have h2 : (npCumsum m)[j] = (m.take (j + 1)).sum := by
    rw [← List.getD_eq_getElem _ 0 hc]
    simpa [npCumsum] using cumsumFrom_getD m 0 j 0 h
  rw [h1, h2]

theorem pySlice_init (a : List α) : pySlice a 0 (-1) = a.dropLast := by
  unfold pySlice pyIdx
  have h1 : ((a.length : Int) + (-1)).toNat = a.length - 1 := by omega
  simp [h1, List.dropLast_eq_take]

theorem pySlice_window_length (a : List α) (L : Nat) (h : L + 1 ≤ a.length) :
    (pySlice a (-(L : Int) - 1) (-1)).length = L := by
  unfold pySlice pyIdx
  rw [if_pos (by omega : (-1 : Int) < 0), if_pos (by omega : -(L : Int) - 1 < 0)]
  have h1 : ((a.length : Int) + -1).toNat = a.length - 1 := by omega
  have h2 : ((a.length : Int) + (-(L : Int) - 1)).toNat = a.length - 1 - L := by omega
  rw [h1, h2, List.length_drop, List.length_take]
  omega

theorem pySlice_window_get? (a : List α) (L k : Nat) (h : L + 1 ≤ a.length) (hk : k < L) :
    (pySlice a (-(L : Int) - 1) (-1)).get? k = a.get? (a.length - 1 - L + k) := by
  unfold pySlice pyIdx
  rw [if_pos (by omega : (-1 : Int) < 0), if_pos (by omega : -(L : Int) - 1 < 0)]
  have h1 : ((a.length : Int) + -1).toNat = a.length - 1 := by omega
  have h2 : ((a.length : Int) + (-(L : Int) - 1)).toNat = a.length - 1 - L := by omega
  rw [h1, h2, List.get?_eq_getElem?, List.get?_eq_getElem?, List.getElem?_drop,
    List.getElem?_take_of_lt (by omega)]

theorem get_inputs_ok (env : Env) (X : List String) (side ps0 : PadSide) (enc : EncodedInput)
    (h : (get_inputs env X side ps0).1 = Except.ok enc) :
    get_inputs env X side ps0 = (Except.ok enc, PadSide.right) := by
  unfold get_inputs at h ⊢
  split at h
  · simp at h
  · split at h
    · simp at h
    · simp_all

theorem pySlice_nil (start stop : Int) : pySlice ([] : List α) start stop = [] := by
  simp [pySlice]

theorem model_inference_encdec_ok (env : Env) (inputs : EncodedInput) (oids : List (List Nat))
    (l : Logits) (hed : env.config.is_encoder_decoder = true) (hb : env.backend ≠ Backend.unset)
    (hfwd : env.fwdEncDec inputs oids = Except.ok l) :
    model_inference env inputs oids = Except.ok l := by
  cases hB : env.backend with
  | pt => simp [model_inference, hB, hed, hfwd]
  | tf =>
    cases hD : env.device with
    | none => simp [model_inference, hB, hed, hfwd, tfDeviceCall, hD]
    | some d => simp [model_inference, hB, hed, hfwd, tfDeviceCall, hD]
  | unset => exact absurd hB hb

theorem model_inference_deconly_ok (env : Env) (inputs : EncodedInput) (oids : List (List Nat))
    (l : Logits) (hed : env.config.is_encoder_decoder = false) (hb : env.backend ≠ Backend.unset)
    (hfwd : env.fwdDecOnly (buildDecoderOnlyArgs inputs oids) = Except.ok l) :
    model_inference env inputs oids = Except.ok l := by
  cases hB : env.backend with
  | pt => simp [model_inference, hB, hed, hfwd]
  | tf =>
    cases hD : env.device with
    | none => simp [model_inference, hB, hed, hfwd, tfDeviceCall, hD]
    | some d => simp [model_inference, hB, hed, hfwd, tfDeviceCall, hD]
  | unset => exact absurd hB hb

/-- Claim C3: for an encoder-decoder model the start-token id is resolved by
checking, in order, the config's decoder_start_token_id, then its
bos_token_id, then the nested decoder config's bos_token_id; and (once source
encoding succeeded) get_teacher_forced_logits raises the configuration error
exactly when none of the three is present. -/
theorem C3_start_token (env : Env) (X : List String) (Y : TargetData) (ps : PadSide)
    (c : ModelConfig)
    (hed : env.config.is_encoder_decoder = true)
    (hinp : ∃ enc, (get_inputs env X PadSide.right ps).1 = Except.ok enc) :
    (∀ i, c.decoder_start_token_id = some i → resolveDecoderStartTokenId c = some i) ∧
    (c.decoder_start_token_id = none → ∀ i, c.bos_token_id = some i →
      resolveDecoderStartTokenId c = some i) ∧
    (c.decoder_start_token_id = none → c.bos_token_id = none →
      resolveDecoderStartTokenId c = c.decoder.bind DecoderConfig.bos_token_id) ∧
    ((get_teacher_forced_logits env X Y ps).1 = Except.error Err.noDecoderStartError ↔
      resolveDecoderStartTokenId env.config = none) := by
  obtain ⟨enc, hok⟩ := hinp
  have hgi := get_inputs_ok env X PadSide.right ps enc hok
  refine ⟨?_, ?_, ?_, ?_⟩
  · intro i hi
    simp [resolveDecoderStartTokenId, hi]
  · intro h0 i hi
    simp [resolveDecoderStartTokenId, h0, hi]
  · intro h0 h1
    cases hd : c.decoder with
    | none => simp [resolveDecoderStartTokenId, h0, h1, hd]
    | some d => simp [resolveDecoderStartTokenId, h0, h1, hd]
  · unfold get_teacher_forced_logits
    rw [hed]
    simp only [if_true, hgi]
    cases hres : resolveDecoderStartTokenId env.config with
    | none => simp
    | some tid =>
      cases hmi : model_inference env enc (encDecDecoderInput tid (get_outputs env Y)) with
      | error e => simp [hmi]
      | ok l => simp [hmi]

/-- Witness for C3 at a concrete encoder-decoder environment. -/
theorem C3_start_token_witness :
    (get_teacher_forced_logits envA ["a"] (TargetData.ids [[5]]) PadSide.right).1 =
        Except.error Err.noDecoderStartError ↔
      resolveDecoderStartTokenId envA.config = none := by
  exact (C3_start_token envA ["a"] (TargetData.ids [[5]]) PadSide.right cfgED rfl
    ⟨{ input_ids := [[0]], attention_mask := [[1]] }, rfl⟩).2.2.2

/-- Claim C6: in the decoder-only input construction, the position id at any
column equals the cumulative sum of the (extended) attention mask up to that
column minus one, except that it is exactly 0 wherever the mask is 0. -/
theorem C6_position_ids (inputs : EncodedInput) (output_ids : List (List Nat)) (i j : Nat)
    (mrow : List Int)
    (hrow : (buildDecoderOnlyArgs inputs output_ids).attention_mask.get? i = some mrow)
    (hj : j < mrow.length) :
    ∃ prow, (buildDecoderOnlyArgs inputs output_ids).position_ids.get? i = some prow ∧
      prow.getD j 0 = (if mrow.getD j 0 = 0 then 0 else (mrow.take (j + 1)).sum - 1) := by
  refine ⟨positionIdsRow mrow, ?_, positionIdsRow_getD mrow j hj⟩
  have hmm : (buildDecoderOnlyArgs inputs output_ids).position_ids =
      (buildDecoderOnlyArgs inputs output_ids).attention_mask.map positionIdsRow := rfl
  rw [List.get?_eq_getElem?] at hrow
  rw [hmm, List.get?_eq_getElem?, List.getElem?_map, hrow]
  rfl

/-- Witness for C6 on a concrete left-padded batch. -/
theorem C6_position_ids_witness :
    ∃ prow, (buildDecoderOnlyArgs { input_ids := [[3, 4]], attention_mask := [[0, 1]] }
        [[9]]).position_ids.get? 0 = some prow ∧
      prow.getD 1 0 = (if ([0, 1, 1] : List Int).getD 1 0 = 0 then 0
        else (([0, 1, 1] : List Int).take 2).sum - 1) := by
  exact C6_position_ids { input_ids := [[3, 4]], attention_mask := [[0, 1]] } [[9]] 0 1
    [0, 1, 1] (by decide) (by decide)

theorem update_ok_output (env : Env) (st : TFState) (T : TargetData)
    (h1 : (update_output_names env st T).1 = Except.ok ()) :
    ((update_output_names env st T).2).output = some T := by
  unfold update_output_names at h1 ⊢
  by_cases hc : st.output = some T
  · rw [if_pos hc]
    exact hc
  · rw [if_neg hc] at h1 ⊢
    cases hg : get_output_names env T with
    | error e =>
      simp only [hg] at h1
      exact absurd h1 (by simp)
    | ok names => simp only [hg]

theorem update_noop (env : Env) (st : TFState) (T : TargetData) (hc : st.output = some T) :
    update_output_names env st T = (Except.ok (), st) := by
  unfold update_output_names
  rw [if_pos hc]

theorem update_recompute (env : Env) (st : TFState) (T : TargetData) (names : List String)
    (hc : ¬ st.output = some T) (hg : get_output_names env T = Except.ok names) :
    update_output_names env st T =
      (Except.ok (), { st with output := some T, output_names := some names,
                               recompute_count := st.recompute_count + 1 }) := by
  unfold update_output_names
  rw [if_neg hc]
  simp only [hg]

/-- Claim C7: updating the cache twice with the same target (by value) is an
exact no-op the second time (state, including OutputNames and the
recomputation counter, is unchanged), while updating with a different target
replaces the cached target and recomputes OutputNames, bumping the counter. -/
theorem C7_cache_idempotent (env : Env) (st : TFState) (T T2 : TargetData) (names2 : List String)
    (h1 : (update_output_names env st T).1 = Except.ok ())
    (hne : T2 ≠ T)
    (h2 : get_output_names env T2 = Except.ok names2) :
    update_output_names env ((update_output_names env st T).2) T =
        (Except.ok (), (update_output_names env st T).2) ∧
    ((update_output_names env st T).2).output = some T ∧
    (update_output_names env ((update_output_names env st T).2) T2).1 = Except.ok () ∧
    ((update_output_names env ((update_output_names env st T).2) T2).2).output = some T2 ∧
    ((update_output_names env ((update_output_names env st T).2) T2).2).output_names =
        some names2 ∧
    ((update_output_names env ((update_output_names env st T).2) T2).2).recompute_count =
        ((update_output_names env st T).2).recompute_count + 1 := by
  have hout := update_ok_output env st T h1
  have hne2 : ¬ (((update_output_names env st T).2).output = some T2) := by
    rw [hout]
    intro hx
    exact hne (Option.some.inj hx).symm
  have hrec := update_recompute env ((update_output_names env st T).2) T2 names2 hne2 h2
  exact ⟨update_noop env _ T hout, hout, by rw [hrec], by rw [hrec], by rw [hrec], by rw [hrec]⟩

/-- Witness for C7 with two concrete distinct targets. -/
theorem C7_cache_idempotent_witness :
    update_output_names envA ((update_output_names envA st0 (TargetData.ids [[1]])).2)
        (TargetData.ids [[1]]) =
      (Except.ok (), (update_output_names envA st0 (TargetData.ids [[1]])).2) ∧
    ((update_output_names envA st0 (TargetData.ids [[1]])).2).output =
        some (TargetData.ids [[1]]) ∧
    (update_output_names envA ((update_output_names envA st0 (TargetData.ids [[1]])).2)
        (TargetData.ids [[2]])).1 = Except.ok () ∧
    ((update_output_names envA ((update_output_names envA st0 (TargetData.ids [[1]])).2)
        (TargetData.ids [[2]])).2).output = some (TargetData.ids [[2]]) ∧
    ((update_output_names envA ((update_output_names envA st0 (TargetData.ids [[1]])).2)
        (TargetData.ids [[2]])).2).output_names = some ["t"] ∧
    ((update_output_names envA ((update_output_names envA st0 (TargetData.ids [[1]])).2)
        (TargetData.ids [[2]])).2).recompute_count =
      ((update_output_names envA st0 (TargetData.ids [[1]])).2).recompute_count + 1 := by
  exact C7_cache_idempotent envA st0 (TargetData.ids [[1]]) (TargetData.ids [[2]]) ["t"]
    rfl (by decide) rfl

/-- Counterexample to claim C8: when the tokenization call inside get_inputs
raises, the padding side set for the call (here 'left') is NOT restored to
the default 'right' -- the manual reset on line 208 is never reached. -/
theorem C8_counterexample :
    (get_inputs envTokFail ["a"] PadSide.left PadSide.right).2 ≠ PadSide.right := by
  decide

/-- Claim C8 (amended): after a get_inputs call that returns successfully the
tokenizer's padding side is restored to the default 'right'; when the
tokenization call raises, the padding side set for that call remains in
place and leaks to subsequent calls. -/
theorem C8_padding_side (env : Env) (X : List String) (side ps0 : PadSide) :
    (∀ enc, (get_inputs env X side ps0).1 = Except.ok enc →
      (get_inputs env X side ps0).2 = PadSide.right) ∧
    (∀ xs, (if env.model_agnostic then env.inner_model X else some X) = some xs →
      env.tokCall side xs = none → (get_inputs env X side ps0).2 = side) := by
  constructor
  · intro enc h
    rw [get_inputs_ok env X side ps0 enc h]
  · intro xs hm ht
    unfold get_inputs
    rw [hm]
    simp only [ht]

/-- Witness for C8 (amended): a successful call resets the side to 'right'. -/
theorem C8_padding_side_witness :
    (get_inputs envA ["a"] PadSide.left PadSide.right).2 = PadSide.right := by
  exact (C8_padding_side envA ["a"] PadSide.left PadSide.right).1
    { input_ids := [[0]], attention_mask := [[1]] } rfl

/-- Counterexample to claim C9: in the pytorch backend a RuntimeError (e.g. a
device-placement failure) raised by the forward pass is NOT caught -- it
propagates -- and in the tensorflow backend the catch leaves `outputs`
unbound, so the call still fails rather than completing non-fatally. -/
theorem C9_counterexample :
    model_inference envFwdFailPt encW [[5]] = Except.error BackendErr.runtimeError ∧
    model_inference envFwdFailTf encW [[5]] = Except.error BackendErr.unboundLocalError := by
  exact ⟨rfl, rfl⟩

/-- Claim C9 (amended): only the tensorflow backend with an explicit device
catches (and logs) a RuntimeError from the forward pass, and there the call
then fails with an unbound-local error instead of returning a result; in the
pytorch backend, and in tensorflow without a device, the forward-pass
outcome propagates unchanged. -/
theorem C9_backend_errors (env : Env) (inputs : EncodedInput) (oids : List (List Nat)) :
    (env.backend = Backend.pt → env.config.is_encoder_decoder = true →
      model_inference env inputs oids = env.fwdEncDec inputs oids) ∧
    (env.backend = Backend.pt → env.config.is_encoder_decoder = false →
      model_inference env inputs oids = env.fwdDecOnly (buildDecoderOnlyArgs inputs oids)) ∧
    (env.backend = Backend.tf → env.device = none → env.config.is_encoder_decoder = true →
      model_inference env inputs oids = env.fwdEncDec inputs oids) ∧
    (env.backend = Backend.tf → env.device = none → env.config.is_encoder_decoder = false →
      model_inference env inputs oids = env.fwdDecOnly (buildDecoderOnlyArgs inputs oids)) ∧
    (∀ d, env.backend = Backend.tf → env.device = some d →
      env.config.is_encoder_decoder = true →
      env.fwdEncDec inputs oids = Except.error BackendErr.runtimeError →
      model_inference env inputs oids = Except.error BackendErr.unboundLocalError) ∧
    (∀ d, env.backend = Backend.tf → env.device = some d →
      env.config.is_encoder_decoder = false →
      env.fwdDecOnly (buildDecoderOnlyArgs inputs oids) = Except.error BackendErr.runtimeError →
      model_inference env inputs oids = Except.error BackendErr.unboundLocalError) := by
  refine ⟨?_, ?_, ?_, ?_, ?_, ?_⟩
  · intro hb hed
    simp [model_inference, hb, hed]
  · intro hb hed
    simp [model_inference, hb, hed]
  · intro hb hd hed
    simp [model_inference, hb, hd, hed, tfDeviceCall]
  · intro hb hd hed
    simp [model_inference, hb, hd, hed, tfDeviceCall]
  · intro d hb hd hed hf
    simp [model_inference, hb, hd, hed, hf, tfDeviceCall]
  · intro d hb hd hed hf
    simp [model_inference, hb, hd, hed, hf, tfDeviceCall]

/-- Witness for C9 (amended) at the tensorflow decoder-only instance. -/
theorem C9_backend_errors_witness :
    model_inference envFwdFailTfDec encW [[5]] = Except.error BackendErr.unboundLocalError := by
  exact (C9_backend_errors envFwdFailTfDec encW [[5]]).2.2.2.2.2 "cuda" rfl rfl rfl rfl

/-- Claim C10: __call__ caches the first row of Y (via Y[:1]) as the target,
and the id row that get_logodds uses to pick vocabulary columns is exactly
that first row -- rows of Y beyond the first never influence which columns
are extracted. -/
theorem C10_first_row_columns (env : Env) (st : TFState) (y0 : List Nat) (ys : List (List Nat)) :
    ((update_output_names env st (TargetData.ids ((y0 :: ys).take 1))).2).output =
        some (TargetData.ids [y0]) ∧
    (update_output_names env st (TargetData.ids ((y0 :: ys).take 1))).1 = Except.ok () ∧
    (∀ ys2 : List (List Nat),
      getLogoddsIds env (some (TargetData.ids ((y0 :: ys2).take 1))) = Except.ok y0) ∧
    (∀ logits : Logits,
      get_logodds env
          ((update_output_names env st (TargetData.ids ((y0 :: ys).take 1))).2).output logits =
        get_logodds env (some (TargetData.ids [y0])) logits) := by
  have htake : (y0 :: ys).take 1 = [y0] := rfl
  have hok : get_output_names env (TargetData.ids [y0]) =
      Except.ok (y0.map env.decode_one) := rfl
  have hmain : ((update_output_names env st (TargetData.ids [y0])).2).output =
        some (TargetData.ids [y0]) ∧
      (update_output_names env st (TargetData.ids [y0])).1 = Except.ok () := by
    by_cases hc : st.output = some (TargetData.ids [y0])
    · rw [update_noop env st _ hc]
      exact ⟨hc, rfl⟩
    · rw [update_recompute env st _ (y0.map env.decode_one) hc hok]
      exact ⟨rfl, rfl⟩
  rw [htake]
  refine ⟨hmain.1, hmain.2, fun ys2 => rfl, fun logits => ?_⟩
  rw [hmain.1]

/-- Claim C4: in the encoder-decoder variant the decoder input handed to
inference carries the resolved start token as the first entry of every row
(targets shifted right by one), and the last time-step of the model's logits
is dropped, leaving exactly target-length positions. -/
theorem C4_enc_dec_alignment (env : Env) (X : List String) (Y : List (List Nat)) (ps : PadSide)
    (tid : Nat) (enc : EncodedInput) (l : Logits) (L : Nat)
    (hed : env.config.is_encoder_decoder = true)
    (hb : env.backend ≠ Backend.unset)
    (hres : resolveDecoderStartTokenId env.config = some tid)
    (hinp : (get_inputs env X PadSide.right ps).1 = Except.ok enc)
    (hfwd : env.fwdEncDec enc (encDecDecoderInput tid Y) = Except.ok l)
    (hrows : ∀ m ∈ l, m.length = L + 1) :
    encDecDecoderInput tid Y = Y.map (fun r => tid :: r) ∧
    (∀ r ∈ encDecDecoderInput tid Y, r.head? = some tid) ∧
    (get_teacher_forced_logits env X (TargetData.ids Y) ps).1 =
        Except.ok (l.map (fun m => pySlice m 0 (-1))) ∧
    (∀ m ∈ l, pySlice m 0 (-1) = m.dropLast) ∧
    (∀ r2 ∈ l.map (fun m => pySlice m 0 (-1)), r2.length = L) := by
  have hgi := get_inputs_ok env X PadSide.right ps enc hinp
  have hmi := model_inference_encdec_ok env enc (encDecDecoderInput tid Y) l hed hb hfwd
  refine ⟨rfl, ?_, ?_, fun m _ => pySlice_init m, ?_⟩
  · intro r hr
    simp only [encDecDecoderInput, List.mem_map] at hr
    obtain ⟨r0, _, rfl⟩ := hr
    rfl
  · unfold get_teacher_forced_logits
    rw [hed]
    simp only [if_true, hgi, get_outputs, hres, hmi]
  · intro r2 hr2
    simp only [List.mem_map] at hr2
    obtain ⟨m, hm, rfl⟩ := hr2
    rw [pySlice_init, List.length_dropLast, hrows m hm]
    omega

/-- Witness for C4 at the concrete encoder-decoder environment. -/
theorem C4_enc_dec_alignment_witness :
    encDecDecoderInput 7 [[5]] = [[5]].map (fun r => 7 :: r) ∧
    (∀ r ∈ encDecDecoderInput 7 [[5]], r.head? = some 7) ∧
    (get_teacher_forced_logits envA ["a"] (TargetData.ids [[5]]) PadSide.right).1 =
        Except.ok ([[[(0 : ℚ), 0], [0, 0]]].map (fun m => pySlice m 0 (-1))) ∧
    (∀ m ∈ ([[[(0 : ℚ), 0], [0, 0]]] : Logits), pySlice m 0 (-1) = m.dropLast) ∧
    (∀ r2 ∈ ([[[(0 : ℚ), 0], [0, 0]]] : Logits).map (fun m => pySlice m 0 (-1)),
      r2.length = 1) := by
  exact C4_enc_dec_alignment envA ["a"] [[5]] PadSide.right 7
    { input_ids := [[0]], attention_mask := [[1]] } [[[(0 : ℚ), 0], [0, 0]]] 1
    rfl (by decide) rfl rfl rfl (by decide)

/-- Claim C5: in the decoder-only variant the target ids are concatenated to
the right of the source ids with the attention mask extended by ones over
the appended region, and the returned logits are the model's logits sliced
to `[-L-1 : -1]` along the position axis: exactly L = target-length
positions ending one before the last. -/
theorem C5_decoder_only_alignment (env : Env) (X : List String) (Y : List (List Nat))
    (ps : PadSide) (enc : EncodedInput) (l : Logits) (P : Nat)
    (hed : env.config.is_encoder_decoder = false)
    (hb : env.backend ≠ Backend.unset)
    (hinp : (get_inputs env X PadSide.left ps).1 = Except.ok enc)
    (hfwd : env.fwdDecOnly (buildDecoderOnlyArgs enc Y) = Except.ok l)
    (hrows : ∀ m ∈ l, m.length = P)
    (hP : npShape1 Y + 1 ≤ P) :
    (buildDecoderOnlyArgs enc Y).input_ids = List.zipWith (· ++ ·) enc.input_ids Y ∧
    (buildDecoderOnlyArgs enc Y).attention_mask =
        List.zipWith (fun m (o : List Nat) => m ++ List.replicate o.length 1)
          enc.attention_mask Y ∧
    (get_teacher_forced_logits env X (TargetData.ids Y) ps).1 =
        Except.ok (l.map (fun m => pySlice m (-(npShape1 Y : Int) - 1) (-1))) ∧
    (∀ m ∈ l, (pySlice m (-(npShape1 Y : Int) - 1) (-1)).length = npShape1 Y) ∧
    (∀ m ∈ l, ∀ k, k < npShape1 Y →
      (pySlice m (-(npShape1 Y : Int) - 1) (-1)).get? k =
        m.get? (P - 1 - npShape1 Y + k)) := by
  have hgi := get_inputs_ok env X PadSide.left ps enc hinp
  have hmi := model_inference_deconly_ok env enc Y l hed hb hfwd
  refine ⟨rfl, rfl, ?_, ?_, ?_⟩
  · unfold get_teacher_forced_logits
    rw [hed]
    simp only [Bool.false_eq_true, if_false, hgi, get_outputs, hmi]
  · intro m hm
    have hlen : npShape1 Y + 1 ≤ m.length := by rw [hrows m hm]; exact hP
    exact pySlice_window_length m (npShape1 Y) hlen
  · intro m hm k hk
    have hlen : npShape1 Y + 1 ≤ m.length := by rw [hrows m hm]; exact hP
    rw [pySlice_window_get? m (npShape1 Y) k hlen hk, hrows m hm]

/-- Witness for C5 at the concrete decoder-only environment. -/
theorem C5_decoder_only_alignment_witness :
    (buildDecoderOnlyArgs encW [[5]]).input_ids =
        List.zipWith (· ++ ·) encW.input_ids [[5]] ∧
    (buildDecoderOnlyArgs encW [[5]]).attention_mask =
        List.zipWith (fun m (o : List Nat) => m ++ List.replicate o.length 1)
          encW.attention_mask [[5]] ∧
    (get_teacher_forced_logits envDec ["a"] (TargetData.ids [[5]]) PadSide.right).1 =
        Except.ok (([[[(0 : ℚ), 0], [0, 0]]] : Logits).map
          (fun m => pySlice m (-(npShape1 ([[5]] : List (List Nat)) : Int) - 1) (-1))) ∧
    (∀ m ∈ ([[[(0 : ℚ), 0], [0, 0]]] : Logits),
      (pySlice m (-(npShape1 ([[5]] : List (List Nat)) : Int) - 1) (-1)).length =
        npShape1 ([[5]] : List (List Nat))) ∧
    (∀ m ∈ ([[[(0 : ℚ), 0], [0, 0]]] : Logits), ∀ k, k < npShape1 ([[5]] : List (List Nat)) →
      (pySlice m (-(npShape1 ([[5]] : List (List Nat)) : Int) - 1) (-1)).get? k =
        m.get? (2 - 1 - npShape1 ([[5]] : List (List Nat)) + k)) := by
  exact C5_decoder_only_alignment envDec ["a"] [[5]] PadSide.right encW
    [[[(0 : ℚ), 0], [0, 0]]] 2 rfl (by decide) rfl rfl (by decide) (by decide)

theorem npShape1_map_len (l : Logits) (f : List ℚ → List ℚ) :
    npShape1 (l.map (fun m => m.map f)) = npShape1 l := by
  cases l with
  | nil => rfl
  | cons m t => simp [npShape1]

/-- Claim C2: get_logodds applies, per position's score vector, the softmax
`exp(scores)/sum(exp(scores))` (no max-subtraction) followed by elementwise
`logit(p) = log(p/(1-p))`, then keeps, per batch row and position, only the
value at that position's cached target id column; the output has shape
(batch, target length). -/
theorem C2_logodds (env : Env) (row0 : List Nat) (M : List (List Nat)) (logits : Logits) (V : Nat)
    (hP : npShape1 logits = row0.length)
    (hrect : ∀ m ∈ logits, m.length = row0.length)
    (hvocab : ∀ m ∈ logits, ∀ v ∈ m, v.length = V)
    (hids : ∀ t ∈ row0, t < V) :
    ∃ R, get_logodds env (some (TargetData.ids (row0 :: M))) logits = Except.ok R ∧
      R.length = logits.length ∧
      (∀ r ∈ R, r.length = row0.length) ∧
      (∀ i j, i < logits.length → j < row0.length →
        (R.getD i []).getD j 0 =
          logoddsSpec env ((logits.getD i []).getD j []) (row0.getD j 0)) := by
  have hlo : npShape1 (logits.map (fun m => m.map (calc_logodds env))) = row0.length := by
    rw [npShape1_map_len]
    exact hP
  refine ⟨(logits.map (fun m => m.map (calc_logodds env))).map
      (fun m => ((List.range row0.length).zip row0).map
        (fun jt => (m.getD jt.1 []).getD jt.2 0)), ?_, ?_, ?_, ?_⟩
  · have h0 : getLogoddsIds env (some (TargetData.ids (row0 :: M))) = Except.ok row0 := rfl
    simp only [get_logodds, h0, npFancyIndex]
    rw [if_pos hlo, hlo]
  · simp
  · intro r hr
    simp only [List.mem_map] at hr
    obtain ⟨m, _, rfl⟩ := hr
    simp [List.length_zip]
  · intro i j hi hj
    have hiA : i < (logits.map (fun m => m.map (calc_logodds env))).length := by simpa using hi
    have hmem : logits.getD i [] ∈ logits := getD_mem_of_lt logits i [] hi
    have hmiL : (logits.getD i []).length = row0.length := hrect _ hmem
    have hjm : j < (logits.getD i []).length := by rw [hmiL]; exact hj
    have hvj : (logits.getD i []).getD j [] ∈ logits.getD i [] := getD_mem_of_lt _ j [] hjm
    have hvjV : ((logits.getD i []).getD j []).length = V := hvocab _ hmem _ hvj
    have htr : row0.getD j 0 ∈ row0 := getD_mem_of_lt row0 j 0 hj
    have htV : row0.getD j 0 < ((logits.getD i []).getD j []).length := by
      rw [hvjV]
      exact hids _ htr
    have hpairs : j < ((List.range row0.length).zip row0).length := by
      simp only [List.length_zip, List.length_range, min_self]
      exact hj
    rw [getD_map_of_lt _ _ i ([] : List ℚ) ([] : List (List ℚ)) hiA]
    rw [getD_map_of_lt ((List.range row0.length).zip row0) _ j (0 : ℚ) ((0, 0) : Nat × Nat)
      hpairs]
    rw [zip_range_getD row0.length row0 j ((0, 0) : Nat × Nat) hj hj]
    rw [getD_map_of_lt logits _ i ([] : List (List ℚ)) ([] : List (List ℚ)) hi]
    rw [getD_map_of_lt (logits.getD i []) _ j ([] : List ℚ) ([] : List ℚ) hjm]
    simp only [calc_logodds]
    rw [getD_map_of_lt ((logits.getD i []).getD j []) _ (row0.getD j 0) (0 : ℚ) (0 : ℚ) htV]
    simp only [logoddsSpec]

/-- Witness for C2 on a one-row, one-position, two-token-vocabulary batch. -/
theorem C2_logodds_witness :
    ∃ R, get_logodds envA (some (TargetData.ids ([0] :: []))) [[[1, 2]]] = Except.ok R ∧
      R.length = ([[[(1 : ℚ), 2]]] : Logits).length ∧
      (∀ r ∈ R, r.length = ([0] : List Nat).length) ∧
      (∀ i j, i < ([[[(1 : ℚ), 2]]] : Logits).length → j < ([0] : List Nat).length →
        (R.getD i []).getD j 0 =
          logoddsSpec envA ((([[[(1 : ℚ), 2]]] : Logits).getD i []).getD j [])
            (([0] : List Nat).getD j 0)) := by
  exact C2_logodds envA [0] [] [[[1, 2]]] 2 (by decide) (by decide) (by decide) (by decide)

/-- Counterexample to claim C1 as universally stated: on the equal-length
pair of EMPTY arrays, __call__ does not return an array with 0 rows -- the
cache update on Y[:1] raises an IndexError inside get_output_names
(`output_ids[0, :]` on an empty batch). -/
theorem C1_counterexample :
    (teacherForcingCall envA (by decide) st0 [] []).1 = Except.error Err.indexError := rfl

theorem chunked_nil (bs : Nat) (h : 0 < bs) : chunked bs h ([] : List α) = [] := by
  rw [chunked]

theorem chunked_cons (bs : Nat) (h : 0 < bs) (x : α) (xs : List α) :
    chunked bs h (x :: xs) = ((x :: xs).take bs) :: chunked bs h ((x :: xs).drop bs) := by
  rw [chunked]

theorem chunked_join_length_aux (bs : Nat) (h : 0 < bs)
    (g : List String → List (List Nat) → List (List ℚ))
    (hg : ∀ Xb Yb, Xb.length = Yb.length → (g Xb Yb).length = Xb.length) :
    ∀ (n : Nat) (X : List String) (Y : List (List Nat)), X.length = n → X.length = Y.length →
      ((List.zipWith g (chunked bs h X) (chunked bs h Y)).flatten).length = X.length := by
  intro n
  induction n using Nat.strong_induction_on with
  | _ n ih =>
    intro X Y hn hXY
    cases X with
    | nil =>
      have hY : Y = [] := List.length_eq_zero.mp (by simp at hXY; omega)
      subst hY
      simp [chunked_nil]
    | cons x xs =>
      cases Y with
      | nil => simp at hXY
      | cons y ys =>
        simp only [List.length_cons] at hXY hn
        rw [chunked_cons, chunked_cons, List.zipWith_cons_cons, List.flatten_cons,
          List.length_append]
        have h1 := hg ((x :: xs).take bs) ((y :: ys).take bs)
          (by simp only [List.length_take, List.length_cons]; omega)
        have h2 := ih ((x :: xs).drop bs).length
          (by simp only [List.length_drop, List.length_cons]; omega)
          ((x :: xs).drop bs) ((y :: ys).drop bs) rfl
          (by simp only [List.length_drop, List.length_cons]; omega)
        rw [h1, h2]
        simp only [List.length_take, List.length_drop, List.length_cons]
        omega

theorem chunked_join_length (bs : Nat) (h : 0 < bs)
    (g : List String → List (List Nat) → List (List ℚ))
    (hg : ∀ Xb Yb, Xb.length = Yb.length → (g Xb Yb).length = Xb.length)
    (X : List String) (Y : List (List Nat)) (hXY : X.length = Y.length) :
    ((List.zipWith g (chunked bs h X) (chunked bs h Y)).flatten).length = X.length :=
  chunked_join_length_aux bs h g hg X.length X Y rfl hXY

theorem callLoop_spec_aux (env : Env) (hbs : 0 < env.batch_size) (cache : Option TargetData)
    (g : List String → List (List Nat) → List (List ℚ))
    (hstep : ∀ ps Xb Yb, Xb ≠ [] → Xb.length = Yb.length → Xb.length ≤ env.batch_size →
      chunkStep env cache Xb Yb ps = (Except.ok (g Xb Yb), PadSide.right)) :
    ∀ (n : Nat) (X : List String) (Y : List (List Nat)) (ps : PadSide),
      X.length = n → X ≠ [] → X.length = Y.length →
      callLoop env hbs cache X Y ps =
        (Except.ok (some ((List.zipWith g (chunked env.batch_size hbs X)
            (chunked env.batch_size hbs Y)).flatten)), PadSide.right) := by
  intro n
  induction n using Nat.strong_induction_on with
  | _ n ih =>
    intro X Y ps hn hX hXY
    obtain ⟨x, xs, rfl⟩ := List.exists_cons_of_ne_nil hX
    obtain ⟨y, ys, rfl⟩ : ∃ y ys, Y = y :: ys := by
      cases Y with
      | nil => simp at hXY
      | cons a b => exact ⟨a, b, rfl⟩
    simp only [List.length_cons] at hXY hn
    have h1 : (x :: xs).take env.batch_size ≠ [] := by
      apply List.length_pos.mp
      simp only [List.length_take, List.length_cons]
      omega
    have h2 : ((x :: xs).take env.batch_size).length = ((y :: ys).take env.batch_size).length := by
      simp only [List.length_take, List.length_cons]
      omega
    have h3 : ((x :: xs).take env.batch_size).length ≤ env.batch_size := by
      simp only [List.length_take, List.length_cons]
      omega
    rw [callLoop, dif_neg hX]
    simp only [hstep ps _ _ h1 h2 h3]
    by_cases hd : (x :: xs).drop env.batch_size = []
    · have hdY : (y :: ys).drop env.batch_size = [] := by
        apply List.length_eq_zero.mp
        have := congrArg List.length hd
        simp only [List.length_drop, List.length_cons, List.length_nil] at this ⊢
        omega
      rw [hd, hdY, callLoop, dif_pos rfl]
      rw [chunked_cons, chunked_cons, hd, hdY, chunked_nil, chunked_nil]
      simp
    · have hdY : ((x :: xs).drop env.batch_size).length =
          ((y :: ys).drop env.batch_size).length := by
        simp only [List.length_drop, List.length_cons]
        omega
      rw [ih ((x :: xs).drop env.batch_size).length
        (by simp only [List.length_drop, List.length_cons]; omega)
        ((x :: xs).drop env.batch_size) ((y :: ys).drop env.batch_size) PadSide.right
        rfl hd hdY]
      rw [chunked_cons, chunked_cons, List.zipWith_cons_cons, List.flatten_cons]

/-- Claim C1 (amended): for every pair of equal-length NONEMPTY arrays X, Y
(positive batch size, per-chunk pipeline succeeding with one output row per
input row), __call__ splits X and Y into consecutive chunks of at most
batch_size rows, concatenates the per-chunk log-odds outputs in input order,
and the result has exactly len(X) rows. (On the empty pair the call instead
raises an IndexError while updating the target cache -- see the
counterexample.) -/
theorem C1_batch_driver (env : Env) (st : TFState) (X : List String) (Y : List (List Nat))
    (g : List String → List (List Nat) → List (List ℚ))
    (hbs : 0 < env.batch_size)
    (hX : X ≠ [])
    (hlen : X.length = Y.length)
    (hupd : (update_output_names env st (TargetData.ids (Y.take 1))).1 = Except.ok ())
    (hg : ∀ Xb Yb, Xb.length = Yb.length → (g Xb Yb).length = Xb.length)
    (hstep : ∀ ps Xb Yb, Xb ≠ [] → Xb.length = Yb.length → Xb.length ≤ env.batch_size →
      chunkStep env ((update_output_names env st (TargetData.ids (Y.take 1))).2).output
          Xb Yb ps =
        (Except.ok (g Xb Yb), PadSide.right)) :
    (teacherForcingCall env hbs st X Y).1 =
      Except.ok (some ((List.zipWith g (chunked env.batch_size hbs X)
        (chunked env.batch_size hbs Y)).flatten)) ∧
    ((List.zipWith g (chunked env.batch_size hbs X)
        (chunked env.batch_size hbs Y)).flatten).length = X.length := by
  refine ⟨?_, chunked_join_length env.batch_size hbs g hg X Y hlen⟩
  have hpair : update_output_names env st (TargetData.ids (Y.take 1)) =
      (Except.ok (), (update_output_names env st (TargetData.ids (Y.take 1))).2) := by
    cases hu : update_output_names env st (TargetData.ids (Y.take 1)) with
    | mk a b =>
      rw [hu] at hupd
      simp only at hupd
      rw [hupd]
  unfold teacherForcingCall
  rw [hpair]
  simp only [callLoop_spec_aux env hbs
    ((update_output_names env st (TargetData.ids (Y.take 1))).2).output g hstep
    X.length X Y _ rfl hX hlen]

theorem gtfl_deconly_eq (env : Env) (X : List String) (Y : List (List Nat)) (ps : PadSide)
    (enc : EncodedInput) (l : Logits)
    (hed : env.config.is_encoder_decoder = false)
    (hb : env.backend ≠ Backend.unset)
    (hinp : (get_inputs env X PadSide.left ps).1 = Except.ok enc)
    (hfwd : env.fwdDecOnly (buildDecoderOnlyArgs enc Y) = Except.ok l) :
    get_teacher_forced_logits env X (TargetData.ids Y) ps =
      (Except.ok (l.map (fun m => pySlice m (-(npShape1 Y : Int) - 1) (-1))), PadSide.right) := by
  have hgi := get_inputs_ok env X PadSide.left ps enc hinp
  have hmi := model_inference_deconly_ok env enc Y l hed hb hfwd
  unfold get_teacher_forced_logits
  rw [hed]
  simp only [Bool.false_eq_true, if_false, hgi, get_outputs, hmi]

theorem chunkStep_ok (env : Env) (cache : Option TargetData) (Xb : List String)
    (Yb : List (List Nat)) (ps : PadSide) (lgts : Logits) (lo : List (List ℚ))
    (h1 : get_teacher_forced_logits env Xb (TargetData.ids Yb) ps =
      (Except.ok lgts, PadSide.right))
    (h2 : get_logodds env cache lgts = Except.ok lo) :
    chunkStep env cache Xb Yb ps = (Except.ok lo, PadSide.right) := by
  unfold chunkStep
  rw [h1]
  simp only [h2]

theorem get_logodds_P0 (env : Env) (t : Nat) (logits : Logits)
    (hP : npShape1 (logits.map (fun m => m.map (calc_logodds env))) = 0) :
    get_logodds env (some (TargetData.ids [[t]])) logits =
      Except.ok (logits.map (fun _ => ([] : List ℚ))) := by
  have h0 : getLogoddsIds env (some (TargetData.ids [[t]])) = Except.ok [t] := rfl
  simp only [get_logodds, h0, npFancyIndex, hP, List.length_cons, List.length_nil,
    Nat.zero_add, reduceIte, List.range_zero, List.map_nil, List.map_map]
  rfl

theorem envC1_bs_pos : 0 < envC1.batch_size := by decide

/-- Witness for C1 (amended): three rows, batch size two, hence chunks of
sizes two and one concatenated in order. -/
theorem C1_batch_driver_witness :
    (teacherForcingCall envC1 envC1_bs_pos st0 ["a", "b", "c"] [[5], [6], [7]]).1 =
      Except.ok (some ((List.zipWith
        (fun (Xb : List String) (Yb : List (List Nat)) =>
          (List.zipWith (fun (a b : List Nat) => a ++ b)
            (Xb.map (fun _ => ([0] : List Nat))) Yb).map (fun _ => ([] : List ℚ)))
        (chunked envC1.batch_size envC1_bs_pos ["a", "b", "c"])
        (chunked envC1.batch_size envC1_bs_pos [[5], [6], [7]])).flatten)) ∧
    ((List.zipWith
        (fun (Xb : List String) (Yb : List (List Nat)) =>
          (List.zipWith (fun (a b : List Nat) => a ++ b)
            (Xb.map (fun _ => ([0] : List Nat))) Yb).map (fun _ => ([] : List ℚ)))
        (chunked envC1.batch_size envC1_bs_pos ["a", "b", "c"])
        (chunked envC1.batch_size envC1_bs_pos [[5], [6], [7]])).flatten).length =
      (["a", "b", "c"] : List String).length := by
  refine C1_batch_driver envC1 st0 ["a", "b", "c"] [[5], [6], [7]] _ envC1_bs_pos
    (by decide) (by decide) rfl ?_ ?_
  · intro Xb Yb h
    simp only [List.length_map, List.length_zipWith]
    omega
  · intro ps Xb Yb hne hlenb hle
    obtain ⟨x, xs, rfl⟩ := List.exists_cons_of_ne_nil hne
    obtain ⟨y, ys, rfl⟩ : ∃ y ys, Yb = y :: ys := by
      cases Yb with
      | nil => simp at hlenb
      | cons a b => exact ⟨a, b, rfl⟩
    show chunkStep envC1 (some (TargetData.ids [[5]])) (x :: xs) (y :: ys) ps = _
    have henc : (get_inputs envC1 (x :: xs) PadSide.left ps).1 = Except.ok
        { input_ids := (x :: xs).map (fun _ => [0]),
          attention_mask := (x :: xs).map (fun _ => [1]) } := rfl
    have hfwd : envC1.fwdDecOnly (buildDecoderOnlyArgs
        { input_ids := (x :: xs).map (fun _ => [0]),
          attention_mask := (x :: xs).map (fun _ => [1]) } (y :: ys)) =
        Except.ok ((buildDecoderOnlyArgs
          { input_ids := (x :: xs).map (fun _ => [0]),
            attention_mask := (x :: xs).map (fun _ => [1]) } (y :: ys)).input_ids.map
            (fun _ => ([] : List (List ℚ)))) := rfl
    have hgt := gtfl_deconly_eq envC1 (x :: xs) (y :: ys) ps _ _ rfl (by decide) henc hfwd
    have hids : (buildDecoderOnlyArgs
        { input_ids := (x :: xs).map (fun _ => [0]),
          attention_mask := (x :: xs).map (fun _ => [1]) } (y :: ys)).input_ids =
        ([0] ++ y) :: List.zipWith (fun a b => a ++ b) (xs.map (fun _ => [0])) ys := by
      simp [buildDecoderOnlyArgs, List.zipWith_cons_cons]
    have hsl : ((buildDecoderOnlyArgs
        { input_ids := (x :: xs).map (fun _ => [0]),
          attention_mask := (x :: xs).map (fun _ => [1]) } (y :: ys)).input_ids.map
          (fun _ => ([] : List (List ℚ)))).map
          (fun m => pySlice m (-(npShape1 (y :: ys) : Int) - 1) (-1)) =
        (buildDecoderOnlyArgs
          { input_ids := (x :: xs).map (fun _ => [0]),
            attention_mask := (x :: xs).map (fun _ => [1]) } (y :: ys)).input_ids.map
            (fun _ => ([] : List (List ℚ))) := by
      simp [List.map_map, Function.comp, pySlice_nil]
    have hP0 : npShape1 (((buildDecoderOnlyArgs
        { input_ids := (x :: xs).map (fun _ => [0]),
          attention_mask := (x :: xs).map (fun _ => [1]) } (y :: ys)).input_ids.map
          (fun _ => ([] : List (List ℚ)))).map
          (fun m => m.map (calc_logodds envC1))) = 0 := by
      rw [hids]
      simp [npShape1]
    have hlg := get_logodds_P0 envC1 5 ((buildDecoderOnlyArgs
        { input_ids := (x :: xs).map (fun _ => [0]),
          attention_mask := (x :: xs).map (fun _ => [1]) } (y :: ys)).input_ids.map
          (fun _ => ([] : List (List ℚ)))) hP0
    have hcs := chunkStep_ok envC1 (some (TargetData.ids [[5]])) (x :: xs) (y :: ys) ps _ _
      (by rw [hgt, hsl]) hlg
    rw [hcs]
    rw [List.map_map]
    rfl
